import Mathlib

/-!
Shallow embedding of the workflow-dispatch action (src/main.ts) and proofs
about its resolution, dispatch and correlation logic.

The single source file defines an async function run that:
  reads configuration, JSON-decodes the structured inputs string,
  lists the repository workflows through a paginated API read,
  locates the workflow by name, numeric id or path suffix,
  posts a dispatch request, and when the dispatch response reports
  status queued together with a workflow run URL, performs one follow-up
  read of that URL to recover the run id; all errors are caught at the
  end, where a message ending in the literal phrase
  "a disabled workflow" produces a warning and a successful return while
  every other message is reported as a failure.

External collaborators (the JSON parser, the paginated list endpoint,
the dispatch endpoint and the run read) are modelled as an environment
record supplying their results, and the observable effects (outputs set,
failure or warning signalled, network calls issued) are collected in a
result record.
-/

namespace WorkflowDispatch

/-- Workflow catalog entry, from the type `Workflow` in src/main.ts
(fields id, name, path). -/
structure Workflow where
  id : Nat
  name : String
  path : String
deriving DecidableEq, Repr

/-- JSON values, the possible results of decoding the structured inputs
string (src/main.ts line 38, JSON.parse).  The decoded value is passed
through to the dispatch request body unchanged, whatever its shape. -/
inductive Json where
  | null : Json
  | bool (b : Bool) : Json
  | num (n : Int) : Json
  | str (s : String) : Json
  | arr (elems : List Json) : Json
  | obj (fields : List (String × Json)) : Json
deriving Repr

/-- Model of the JavaScript String.prototype.endsWith used at
src/main.ts lines 58 and 95: the second string is a suffix of the
character sequence of the first. -/
def jsEndsWith (s pat : String) : Bool :=
  pat.data.isSuffixOf s.data

/-- Model of JavaScript truthiness for the optional string
dispatchResp.data.workflow_url (src/main.ts line 72): absent and empty
strings are falsy. -/
def truthy : Option String → Bool
  | none => false
  | some s => !(s == "")

/-- Immediate dispatch response data, as read by src/main.ts line 72:
data.status and data.workflow_url (either may be absent). -/
structure DispatchData where
  status : Option String
  workflow_url : Option String
deriving DecidableEq, Repr

/-- Caller-supplied configuration, after the input reading and
defaulting of src/main.ts lines 25-39: the workflow reference, the git
ref, the owner and repo, and the raw structured inputs string. -/
structure Config where
  workflowRef : String
  ref : String
  owner : String
  repo : String
  inputsJson : String

/-- One network call, in the order issued: a catalog page read
(octokit.paginate, src/main.ts line 45), the dispatch POST
(line 67) carrying the request body, or the follow-up run read
(line 77) addressed to the workflow run URL. -/
inductive NetCall where
  | listPage (page : Nat) : NetCall
  | dispatch (owner repo : String) (workflowId : Nat) (ref : String) (inputs : Json) : NetCall
  | runRead (url : String) : NetCall

def NetCall.isRunReadCall : NetCall → Bool
  | NetCall.runRead _ => true
  | _ => false

def NetCall.isDispatchCall : NetCall → Bool
  | NetCall.dispatch _ _ _ _ _ => true
  | _ => false

/-- Environment supplying the results of the external collaborators:
the JSON parse of the inputs string, the sequence of catalog pages the
provider returns (an error entry is a failing page fetch), the dispatch
response, and the run read keyed by URL. -/
structure Env where
  parseResult : Except String Json
  pages : List (Except String (List Workflow))
  dispatchResult : Except String DispatchData
  runRead : String → Except String Nat

/-- Successful completion data of the try block: the optional run id
output, the workflow id output, and, when the dispatch response was not
in the queued-with-URL shape, the provider-given status reported by the
log line at src/main.ts line 84. -/
structure Success where
  runId : Option Nat
  workflowId : Nat
  unconfirmedStatus : Option (Option String)
deriving DecidableEq, Repr

/-- Observable outcome of one invocation: the setFailed message if any,
whether the disabled-workflow warning fired, the runId and workflowId
outputs, the status note of the unconfirmed-dispatch branch, and the
network calls issued in order. -/
structure RunResult where
  failedMsg : Option String
  warned : Bool
  runId : Option Nat
  workflowId : Option Nat
  unconfirmedStatus : Option (Option String)
  calls : List NetCall

/-- Modelled from the spec: the pagination loop lives in the external
octokit.paginate helper invoked at src/main.ts line 45, so it is not in
the repository source; per the spec it drains the page sequence in
order, concatenating page contents, and stops at the first failing page
fetch, whose error propagates.  The index argument numbers the page
requests; the function returns the calls issued and the concatenated
catalog or the first error. -/
def paginate (i : Nat) : List (Except String (List Workflow)) → List NetCall × Except String (List Workflow)
  | [] => ([], Except.ok [])
  | Except.error msg :: _ => ([NetCall.listPage i], Except.error msg)
  | Except.ok page :: rest =>
    let r := paginate (i + 1) rest
    (NetCall.listPage i :: r.1,
      match r.2 with
      | Except.ok ws => Except.ok (page ++ ws)
      | Except.error msg => Except.error msg)

/-- Matching predicate of src/main.ts lines 56-58: name equality,
string form of the numeric id, or path suffix. -/
def matchesRef (w : Workflow) (workflowRef : String) : Bool :=
  w.name == workflowRef || toString w.id == workflowRef || jsEndsWith w.path workflowRef

/-- Workflow lookup of src/main.ts lines 55-59: first catalog entry
satisfying the matching predicate, in catalog order. -/
def findWorkflow (workflows : List Workflow) (workflowRef : String) : Option Workflow :=
  workflows.find? (fun w => matchesRef w workflowRef)

/-- Error message thrown at src/main.ts line 61 when no catalog entry
matches the reference. -/
def notFoundMsg (cfg : Config) : String :=
  "Unable to find workflow \x27" ++ cfg.workflowRef ++ "\x27 in " ++ cfg.owner ++ "/" ++ cfg.repo ++ " 😥"

/-- Structured-inputs decoding of src/main.ts lines 35-39: an empty
string leaves the default empty object, otherwise the JSON parse result
is used and a parse error is thrown. -/
def parsedInputs (cfg : Config) (env : Env) : Except String Json :=
  if cfg.inputsJson == "" then Except.ok (Json.obj []) else env.parseResult

/-- The try block of src/main.ts lines 23-91: decode inputs, fetch the
paginated catalog, locate the workflow (throwing the not-found message
when absent), post the dispatch, and when the response is queued with a
truthy workflow run URL perform one follow-up read for the run id;
otherwise record the provider-given status.  Returns the network calls
issued together with either the success data or the first thrown
message. -/
def attempt (cfg : Config) (env : Env) : List NetCall × Except String Success :=
  match parsedInputs cfg env with
  | Except.error msg => ([], Except.error msg)
  | Except.ok inputs =>
    match paginate 0 env.pages with
    | (pcalls, Except.error msg) => (pcalls, Except.error msg)
    | (pcalls, Except.ok workflows) =>
      match findWorkflow workflows cfg.workflowRef with
      | none => (pcalls, Except.error (notFoundMsg cfg))
      | some wf =>
        let calls1 := pcalls ++ [NetCall.dispatch cfg.owner cfg.repo wf.id cfg.ref inputs]
        match env.dispatchResult with
        | Except.error msg => (calls1, Except.error msg)
        | Except.ok d =>
          if (d.status == some "queued" && truthy d.workflow_url) then
            let url := d.workflow_url.getD ""
            let calls2 := calls1 ++ [NetCall.runRead url]
            match env.runRead url with
            | Except.error msg => (calls2, Except.error msg)
            | Except.ok rid =>
              (calls2, Except.ok { runId := some rid, workflowId := wf.id, unconfirmedStatus := none })
          else
            (calls1, Except.ok { runId := none, workflowId := wf.id, unconfirmedStatus := some d.status })

/-- The whole of run in src/main.ts: the try block, then the catch of
lines 92-101, which warns and returns successfully when the message
ends with "a disabled workflow" and otherwise signals failure with the
unmodified message. -/
def run (cfg : Config) (env : Env) : RunResult :=
  match attempt cfg env with
  | (calls, Except.ok s) =>
    { failedMsg := none, warned := false, runId := s.runId,
      workflowId := some s.workflowId, unconfirmedStatus := s.unconfirmedStatus,
      calls := calls }
  | (calls, Except.error msg) =>
    if jsEndsWith msg "a disabled workflow" then
      { failedMsg := none, warned := true, runId := none, workflowId := none,
        unconfirmedStatus := none, calls := calls }
    else
      { failedMsg := some msg, warned := false, runId := none, workflowId := none,
        unconfirmedStatus := none, calls := calls }

/-! Concrete fixtures used to witness the theorems below, taken from
the worked scenario of the spec (a build and a deploy workflow). -/

def wfBuild : Workflow :=
  { id := 1, name := "build", path := ".github/workflows/build.yml" }

def wfDeploy : Workflow :=
  { id := 2, name := "deploy", path := ".github/workflows/deploy.yml" }

def baseCfg : Config :=
  { workflowRef := "build", ref := "main", owner := "octo", repo := "proj", inputsJson := "" }

def envDisabled : Env :=
  { parseResult := Except.ok Json.null,
    pages := [Except.ok [wfBuild]],
    dispatchResult := Except.error "refers to a disabled workflow",
    runRead := fun _ => Except.error "unused" }

def envPageDown : Env :=
  { parseResult := Except.ok Json.null,
    pages := [Except.error "HttpError: Bad credentials"],
    dispatchResult := Except.error "unused",
    runRead := fun _ => Except.error "unused" }

def envPageDisabledMsg : Env :=
  { parseResult := Except.ok Json.null,
    pages := [Except.error "a disabled workflow"],
    dispatchResult := Except.error "unused",
    runRead := fun _ => Except.error "unused" }

def envQueued : Env :=
  { parseResult := Except.ok Json.null,
    pages := [Except.ok [wfBuild]],
    dispatchResult := Except.ok { status := some "queued", workflow_url := some "https://api.example/runs-collection" },
    runRead := fun u => if u == "https://api.example/runs-collection" then Except.ok 555 else Except.error "404" }

def envNotQueued : Env :=
  { parseResult := Except.ok Json.null,
    pages := [Except.ok [wfBuild]],
    dispatchResult := Except.ok { status := some "completed", workflow_url := none },
    runRead := fun _ => Except.error "unused" }

def cfgNotFound : Config :=
  { workflowRef := "nonexistent", ref := "main", owner := "octo", repo := "proj", inputsJson := "" }

def envCatalog : Env :=
  { parseResult := Except.ok Json.null,
    pages := [Except.ok [wfBuild, wfDeploy]],
    dispatchResult := Except.error "unused",
    runRead := fun _ => Except.error "unused" }

def cfgBadJson : Config :=
  { workflowRef := "build", ref := "main", owner := "octo", repo := "proj", inputsJson := "\x7bbad json" }

def envBadJson : Env :=
  { parseResult := Except.error "Unexpected token b in JSON at position 1",
    pages := [Except.ok [wfBuild]],
    dispatchResult := Except.error "unused",
    runRead := fun _ => Except.error "unused" }

def cfgArrayJson : Config :=
  { workflowRef := "build", ref := "main", owner := "octo", repo := "proj", inputsJson := "[1,2]" }

def envArrayJson : Env :=
  { parseResult := Except.ok (Json.arr [Json.num 1, Json.num 2]),
    pages := [Except.ok [wfBuild]],
    dispatchResult := Except.ok { status := some "completed", workflow_url := none },
    runRead := fun _ => Except.error "unused" }

/-! Helper lemmas about the matcher and the page drain. -/

theorem jsEndsWith_empty_pat (s : String) : jsEndsWith s "" = true := by
  have h : ("" : String).data = [] := rfl
  simp [jsEndsWith, h, List.isSuffixOf_iff_suffix]

theorem matchesRef_empty (w : Workflow) : matchesRef w "" = true := by
  simp [matchesRef, jsEndsWith_empty_pat]

theorem paginate_ok_shape (pages : List (List Workflow)) :
    ∀ i, paginate i (pages.map Except.ok) =
      ((List.range' i pages.length).map NetCall.listPage, Except.ok pages.flatten) := by
  induction pages with
  | nil => intro i; simp [paginate]
  | cons p rest ih =>
    intro i
    simp [paginate, ih (i + 1), List.range'_succ]

theorem paginate_calls_listPage (i : Nat) (pages : List (Except String (List Workflow))) :
    ∀ c ∈ (paginate i pages).1, ∃ j, i ≤ j ∧ c = NetCall.listPage j := by
  induction pages generalizing i with
  | nil => intro c hc; simp [paginate] at hc
  | cons p rest ih =>
    intro c hc
    cases p with
    | error msg =>
      simp [paginate] at hc
      exact ⟨i, Nat.le_refl i, hc⟩
    | ok page =>
      simp [paginate] at hc
      rcases hc with hc | hc
      · exact ⟨i, Nat.le_refl i, hc⟩
      · obtain ⟨j, hj, hcj⟩ := ih (i + 1) c hc
        exact ⟨j, Nat.le_trans (Nat.le_succ i) hj, hcj⟩

theorem paginate_calls_nodup (i : Nat) (pages : List (Except String (List Workflow))) :
    (paginate i pages).1.Nodup := by
  induction pages generalizing i with
  | nil => simp [paginate]
  | cons p rest ih =>
    cases p with
    | error msg => simp [paginate]
    | ok page =>
      simp only [paginate, List.nodup_cons]
      refine ⟨?_, ih (i + 1)⟩
      intro hmem
      obtain ⟨j, hj, hcj⟩ := paginate_calls_listPage (i + 1) rest _ hmem
      injection hcj with h
      omega

theorem run_calls_eq (cfg : Config) (env : Env) :
    (run cfg env).calls = (attempt cfg env).1 := by
  rcases hA : attempt cfg env with ⟨calls, r⟩
  cases r with
  | ok s => simp [run, hA]
  | error msg =>
    by_cases hm : jsEndsWith msg "a disabled workflow" = true
    · simp [run, hA, hm]
    · simp [run, hA, hm]

theorem attempt_calls_nodup (cfg : Config) (env : Env) : (attempt cfg env).1.Nodup := by
  cases hp : parsedInputs cfg env with
  | error msg => simp [attempt, hp]
  | ok inputs =>
    rcases hq : paginate 0 env.pages with ⟨pcalls, res⟩
    have hshape : ∀ c ∈ pcalls, ∃ j, 0 ≤ j ∧ c = NetCall.listPage j := by
      have hs := paginate_calls_listPage 0 env.pages
      rw [hq] at hs; exact hs
    have hnd : pcalls.Nodup := by
      have hs := paginate_calls_nodup 0 env.pages
      rw [hq] at hs; exact hs
    have hnd1 : ∀ (inputs0 : Json) (wf : Workflow),
        (pcalls ++ [NetCall.dispatch cfg.owner cfg.repo wf.id cfg.ref inputs0]).Nodup := by
      intro inputs0 wf
      rw [List.nodup_append]
      refine ⟨hnd, List.nodup_singleton _, ?_⟩
      intro c hc hc2
      obtain ⟨j, _, rfl⟩ := hshape c hc
      simp at hc2
    have hnd2 : ∀ (inputs0 : Json) (wf : Workflow) (u : String),
        ((pcalls ++ [NetCall.dispatch cfg.owner cfg.repo wf.id cfg.ref inputs0]) ++ [NetCall.runRead u]).Nodup := by
      intro inputs0 wf u
      rw [List.nodup_append]
      refine ⟨hnd1 inputs0 wf, List.nodup_singleton _, ?_⟩
      intro c hc hc2
      simp only [List.mem_singleton] at hc2
      subst hc2
      rcases List.mem_append.mp hc with h | h
      · obtain ⟨j, _, hj⟩ := hshape _ h
        simp at hj
      · simp at h
    cases res with
    | error msg => simpa [attempt, hp, hq] using hnd
    | ok workflows =>
      cases hf : findWorkflow workflows cfg.workflowRef with
      | none => simpa [attempt, hp, hq, hf] using hnd
      | some wf =>
        cases hd : env.dispatchResult with
        | error msg => simpa [attempt, hp, hq, hf, hd] using hnd1 inputs wf
        | ok d =>
          by_cases hready : (d.status == some "queued" && truthy d.workflow_url) = true
          · cases hrr : env.runRead (d.workflow_url.getD "") with
            | error msg =>
              simpa [attempt, hp, hq, hf, hd, hready, hrr] using hnd2 inputs wf (d.workflow_url.getD "")
            | ok rid =>
              simpa [attempt, hp, hq, hf, hd, hready, hrr] using hnd2 inputs wf (d.workflow_url.getD "")
          · have hready2 : (d.status == some "queued" && truthy d.workflow_url) = false := by
              simpa using hready
            simpa [attempt, hp, hq, hf, hd, hready2] using hnd1 inputs wf

theorem filter_of_listPage (p : NetCall → Bool) (hP : ∀ j, p (NetCall.listPage j) = false)
    (l : List NetCall) (hl : ∀ c ∈ l, ∃ j, 0 ≤ j ∧ c = NetCall.listPage j) :
    l.filter p = [] := by
  rw [List.filter_eq_nil_iff]
  intro c hc
  obtain ⟨j, _, rfl⟩ := hl c hc
  simp [hP j]

theorem suffix_getLast (l1 l2 : List Char) (h : l1 <:+ l2) (c : Char)
    (hc : l1.getLast? = some c) : l2.getLast? = some c := by
  obtain ⟨t, rfl⟩ := h
  have hne : l1 ≠ [] := by
    intro he
    rw [he] at hc
    simp at hc
  rw [List.getLast?_append_of_ne_nil _ hne]
  exact hc

theorem notFoundMsg_not_disabled (cfg : Config) :
    jsEndsWith (notFoundMsg cfg) "a disabled workflow" = false := by
  by_contra hne
  have htrue : jsEndsWith (notFoundMsg cfg) "a disabled workflow" = true := by
    revert hne
    cases jsEndsWith (notFoundMsg cfg) "a disabled workflow" <;> simp
  have hsuf : ("a disabled workflow" : String).data <:+ (notFoundMsg cfg).data :=
    List.isSuffixOf_iff_suffix.mp (by simpa [jsEndsWith] using htrue)
  have hlast : (notFoundMsg cfg).data.getLast? = some '😥' := by
    have hform : notFoundMsg cfg =
        ("Unable to find workflow \x27" ++ cfg.workflowRef ++ "\x27 in " ++ cfg.owner ++ "/" ++ cfg.repo) ++ " 😥" := rfl
    have h2 : (" 😥" : String).data ≠ [] := by decide
    rw [hform, String.data_append, List.getLast?_append_of_ne_nil _ h2]
    decide
  have hw : (notFoundMsg cfg).data.getLast? = some 'w' :=
    suffix_getLast _ _ hsuf 'w' (by decide)
  rw [hlast] at hw
  exact absurd hw (by decide)

/-- C1: for every catalog and reference, if some entry matches by name,
string id or path suffix, the matcher returns the first matching entry
in catalog order, and if no entry matches it returns none. -/
theorem find_workflow_first (catalog : List Workflow) (r : String) :
    (∀ w, w ∈ catalog → matchesRef w r = true →
      ∃ w0 l1 l2, findWorkflow catalog r = some w0 ∧ matchesRef w0 r = true ∧
        catalog = l1 ++ w0 :: l2 ∧ ∀ x ∈ l1, matchesRef x r = false) ∧
    ((∀ w ∈ catalog, matchesRef w r = false) → findWorkflow catalog r = none) := by
  induction catalog with
  | nil =>
    exact ⟨fun w hw => absurd hw (List.not_mem_nil w), fun _ => rfl⟩
  | cons a as ih =>
    by_cases ha : matchesRef a r = true
    · refine ⟨fun w _ _ => ⟨a, [], as, ?_, ha, rfl, by simp⟩, fun hall => ?_⟩
      · simp [findWorkflow, List.find?_cons_of_pos, ha]
      · exact absurd (hall a (List.mem_cons_self a as)) (by simp [ha])
    · have hfind : findWorkflow (a :: as) r = findWorkflow as r := by
        simp only [findWorkflow]
        exact List.find?_cons_of_neg as (by simpa using ha)
      have hafalse : matchesRef a r = false := by
        simpa using ha
      refine ⟨fun w hw hm => ?_, fun hall => ?_⟩
      · have hwas : w ∈ as := by
          rcases List.mem_cons.mp hw with h | h
          · exact absurd (h ▸ hm) ha
          · exact h
        obtain ⟨w0, l1, l2, hf, hm0, hcat, hl1⟩ := ih.1 w hwas hm
        refine ⟨w0, a :: l1, l2, by rw [hfind]; exact hf, hm0, by simp [hcat], ?_⟩
        intro x hx
        rcases List.mem_cons.mp hx with h | h
        · exact h ▸ hafalse
        · exact hl1 x h
      · rw [hfind]
        exact ih.2 fun w hw => hall w (List.mem_cons_of_mem a hw)

/-- Witness for C1 on the two-entry example catalog of the spec, with
the path-suffix reference deploy.yml selecting the second entry. -/
theorem find_workflow_first_witness :
    ∃ w0 l1 l2,
      findWorkflow
        [{ id := 1, name := "build", path := ".github/workflows/build.yml" },
         { id := 2, name := "deploy", path := ".github/workflows/deploy.yml" }] "deploy.yml" = some w0 ∧
      matchesRef w0 "deploy.yml" = true ∧
      [{ id := 1, name := "build", path := ".github/workflows/build.yml" },
       { id := 2, name := "deploy", path := ".github/workflows/deploy.yml" }] = l1 ++ w0 :: l2 ∧
      ∀ x ∈ l1, matchesRef x "deploy.yml" = false :=
  (find_workflow_first
      [{ id := 1, name := "build", path := ".github/workflows/build.yml" },
       { id := 2, name := "deploy", path := ".github/workflows/deploy.yml" }] "deploy.yml").1
    { id := 2, name := "deploy", path := ".github/workflows/deploy.yml" }
    (by simp) (by decide)

/-- C9: with the empty reference every path suffix-matches, so the
matcher selects the first entry of any non-empty catalog; an empty
reference is never rejected. -/
theorem empty_reference_matches_first (w : Workflow) (ws : List Workflow) :
    findWorkflow (w :: ws) "" = some w := by
  simp [findWorkflow, List.find?_cons_of_pos, matchesRef_empty w]

/-- C8: draining a catalog of N successful pages returns the
concatenation of the pages in provider order and issues exactly N page
requests. -/
theorem fetch_all_pages (pages : List (List Workflow)) :
    paginate 0 (pages.map Except.ok) =
      ((List.range pages.length).map NetCall.listPage, Except.ok pages.flatten) ∧
    ((List.range pages.length).map NetCall.listPage).length = pages.length := by
  refine ⟨?_, by simp⟩
  rw [List.range_eq_range']
  exact paginate_ok_shape pages 0

/-- C2: every error thrown during the invocation whose message ends
with the literal phrase "a disabled workflow" makes the invocation
finish successfully with only the warning notice, and neither the runId
output nor the workflowId output is set. -/
theorem disabled_error_benign (cfg : Config) (env : Env) (calls : List NetCall) (msg : String)
    (h : attempt cfg env = (calls, Except.error msg))
    (hmsg : jsEndsWith msg "a disabled workflow" = true) :
    (run cfg env).failedMsg = none ∧ (run cfg env).warned = true ∧
    (run cfg env).runId = none ∧ (run cfg env).workflowId = none := by
  refine ⟨?_, ?_, ?_, ?_⟩ <;> simp [run, h, hmsg]

/-- Witness for C2: a dispatch rejection ending in the disabled phrase
completes the invocation with a warning and without outputs. -/
theorem disabled_error_benign_witness :
    (run baseCfg envDisabled).failedMsg = none ∧ (run baseCfg envDisabled).warned = true ∧
    (run baseCfg envDisabled).runId = none ∧ (run baseCfg envDisabled).workflowId = none :=
  disabled_error_benign baseCfg envDisabled
    [NetCall.listPage 0, NetCall.dispatch "octo" "proj" 1 "main" (Json.obj [])]
    "refers to a disabled workflow" rfl rfl

/-- C3 counterexample: a failing catalog page fetch whose error message
ends with the disabled phrase is converted to a successful completion
with a warning, not the terminal failure the claim requires for every
failing network call. -/
theorem network_failure_swallowed_cx :
    (run baseCfg envPageDisabledMsg).failedMsg = none ∧
    (run baseCfg envPageDisabledMsg).warned = true := ⟨rfl, rfl⟩

/-- C3 (amended): every thrown message that does not end with the
disabled phrase is reported as a terminal failure carrying the
unmodified message and no warning, and no network call is ever issued
twice (no retry); the only errors converted to success are those whose
message ends with the disabled phrase, whatever call raised them. -/
theorem failure_propagates_unmodified (cfg : Config) (env : Env) (calls : List NetCall) (msg : String)
    (h : attempt cfg env = (calls, Except.error msg))
    (hmsg : jsEndsWith msg "a disabled workflow" = false) :
    (run cfg env).failedMsg = some msg ∧ (run cfg env).warned = false ∧
    (run cfg env).calls.Nodup := by
  have hnd := attempt_calls_nodup cfg env
  rw [h] at hnd
  refine ⟨by simp [run, h, hmsg], by simp [run, h, hmsg], ?_⟩
  simpa [run, h, hmsg] using hnd

/-- Witness for C3 (amended): a failing catalog page fetch with an
ordinary transport message produces a terminal failure with that exact
message and a duplicate-free call trace. -/
theorem failure_propagates_unmodified_witness :
    (run baseCfg envPageDown).failedMsg = some "HttpError: Bad credentials" ∧
    (run baseCfg envPageDown).warned = false ∧
    (run baseCfg envPageDown).calls.Nodup :=
  failure_propagates_unmodified baseCfg envPageDown
    [NetCall.listPage 0] "HttpError: Bad credentials" rfl rfl

/-- C4: a dispatch response with status queued and a non-empty workflow
run URL leads to exactly one follow-up read, addressed to that URL, and
the runId output is set to the id found there. -/
theorem queued_dispatch_correlates (cfg : Config) (env : Env)
    (inputs : Json) (pcalls : List NetCall) (workflows : List Workflow) (wf : Workflow)
    (d : DispatchData) (u : String) (rid : Nat)
    (h1 : parsedInputs cfg env = Except.ok inputs)
    (h2 : paginate 0 env.pages = (pcalls, Except.ok workflows))
    (h3 : findWorkflow workflows cfg.workflowRef = some wf)
    (h4 : env.dispatchResult = Except.ok d)
    (h5 : d.status = some "queued")
    (h6 : d.workflow_url = some u)
    (h7 : u ≠ "")
    (h8 : env.runRead u = Except.ok rid) :
    (run cfg env).runId = some rid ∧
    (run cfg env).calls.filter NetCall.isRunReadCall = [NetCall.runRead u] := by
  have hready : (d.status == some "queued" && truthy d.workflow_url) = true := by
    simp [h5, h6, truthy, h7]
  have hurl : d.workflow_url.getD "" = u := by simp [h6]
  have hatt : attempt cfg env =
      (pcalls ++ [NetCall.dispatch cfg.owner cfg.repo wf.id cfg.ref inputs, NetCall.runRead u],
       Except.ok { runId := some rid, workflowId := wf.id, unconfirmedStatus := none }) := by
    simp [attempt, h1, h2, h3, h4, hready, hurl, h8]
  have hshape : ∀ c ∈ pcalls, ∃ j, 0 ≤ j ∧ c = NetCall.listPage j := by
    have hs := paginate_calls_listPage 0 env.pages
    rw [h2] at hs; exact hs
  have hpfilter : pcalls.filter NetCall.isRunReadCall = [] :=
    filter_of_listPage _ (fun j => rfl) pcalls hshape
  refine ⟨by simp [run, hatt], ?_⟩
  have hcalls : (run cfg env).calls =
      pcalls ++ [NetCall.dispatch cfg.owner cfg.repo wf.id cfg.ref inputs, NetCall.runRead u] := by
    rw [run_calls_eq, hatt]
  rw [hcalls, List.filter_append, hpfilter]
  simp [List.filter, NetCall.isRunReadCall]

/-- Witness for C4 on the worked scenario of the spec: queued dispatch
with the runs-collection URL correlates to run id 555. -/
theorem queued_dispatch_correlates_witness :
    (run baseCfg envQueued).runId = some 555 ∧
    (run baseCfg envQueued).calls.filter NetCall.isRunReadCall =
      [NetCall.runRead "https://api.example/runs-collection"] :=
  queued_dispatch_correlates baseCfg envQueued (Json.obj []) [NetCall.listPage 0] [wfBuild] wfBuild
    { status := some "queued", workflow_url := some "https://api.example/runs-collection" }
    "https://api.example/runs-collection" 555 rfl rfl rfl rfl rfl rfl (by decide) rfl

/-- C5: a dispatch response that is not queued-with-a-non-empty-URL
leads to zero follow-up reads; the invocation completes successfully,
reports the provider-given status, leaves the runId output unset and
still sets the workflowId output to the matched workflow id. -/
theorem unconfirmed_dispatch_no_correlation (cfg : Config) (env : Env)
    (inputs : Json) (pcalls : List NetCall) (workflows : List Workflow) (wf : Workflow)
    (d : DispatchData)
    (h1 : parsedInputs cfg env = Except.ok inputs)
    (h2 : paginate 0 env.pages = (pcalls, Except.ok workflows))
    (h3 : findWorkflow workflows cfg.workflowRef = some wf)
    (h4 : env.dispatchResult = Except.ok d)
    (h5 : (d.status == some "queued" && truthy d.workflow_url) = false) :
    (run cfg env).calls.filter NetCall.isRunReadCall = [] ∧
    (run cfg env).failedMsg = none ∧ (run cfg env).warned = false ∧
    (run cfg env).unconfirmedStatus = some d.status ∧
    (run cfg env).runId = none ∧
    (run cfg env).workflowId = some wf.id := by
  have hatt : attempt cfg env =
      (pcalls ++ [NetCall.dispatch cfg.owner cfg.repo wf.id cfg.ref inputs],
       Except.ok { runId := none, workflowId := wf.id, unconfirmedStatus := some d.status }) := by
    simp [attempt, h1, h2, h3, h4, h5]
  have hshape : ∀ c ∈ pcalls, ∃ j, 0 ≤ j ∧ c = NetCall.listPage j := by
    have hs := paginate_calls_listPage 0 env.pages
    rw [h2] at hs; exact hs
  have hpfilter : pcalls.filter NetCall.isRunReadCall = [] :=
    filter_of_listPage _ (fun j => rfl) pcalls hshape
  have hcalls : (run cfg env).calls =
      pcalls ++ [NetCall.dispatch cfg.owner cfg.repo wf.id cfg.ref inputs] := by
    rw [run_calls_eq, hatt]
  refine ⟨?_, by simp [run, hatt], by simp [run, hatt], by simp [run, hatt],
    by simp [run, hatt], by simp [run, hatt]⟩
  rw [hcalls, List.filter_append, hpfilter]
  simp [NetCall.isRunReadCall]

/-- Witness for C5: a completed status with no URL yields no follow-up
read, a successful completion reporting that status, no runId and the
matched workflowId. -/
theorem unconfirmed_dispatch_no_correlation_witness :
    (run baseCfg envNotQueued).calls.filter NetCall.isRunReadCall = [] ∧
    (run baseCfg envNotQueued).failedMsg = none ∧ (run baseCfg envNotQueued).warned = false ∧
    (run baseCfg envNotQueued).unconfirmedStatus = some (some "completed") ∧
    (run baseCfg envNotQueued).runId = none ∧
    (run baseCfg envNotQueued).workflowId = some 1 :=
  unconfirmed_dispatch_no_correlation baseCfg envNotQueued (Json.obj [])
    [NetCall.listPage 0] [wfBuild] wfBuild
    { status := some "completed", workflow_url := none } rfl rfl rfl rfl rfl

/-- C6: when no catalog entry matches the reference the invocation
fails terminally with a message containing the reference, the owner and
the repo, and no dispatch call is attempted. -/
theorem not_found_fatal (cfg : Config) (env : Env)
    (inputs : Json) (pcalls : List NetCall) (workflows : List Workflow)
    (h1 : parsedInputs cfg env = Except.ok inputs)
    (h2 : paginate 0 env.pages = (pcalls, Except.ok workflows))
    (h3 : findWorkflow workflows cfg.workflowRef = none) :
    (∃ a b, (run cfg env).failedMsg = some (a ++ cfg.workflowRef ++ b)) ∧
    (∃ a b, (run cfg env).failedMsg = some (a ++ cfg.owner ++ b)) ∧
    (∃ a b, (run cfg env).failedMsg = some (a ++ cfg.repo ++ b)) ∧
    (run cfg env).calls.filter NetCall.isDispatchCall = [] := by
  have hmsg := notFoundMsg_not_disabled cfg
  have hatt : attempt cfg env = (pcalls, Except.error (notFoundMsg cfg)) := by
    simp [attempt, h1, h2, h3]
  have hfail : (run cfg env).failedMsg = some (notFoundMsg cfg) := by
    simp [run, hatt, hmsg]
  have hshape : ∀ c ∈ pcalls, ∃ j, 0 ≤ j ∧ c = NetCall.listPage j := by
    have hs := paginate_calls_listPage 0 env.pages
    rw [h2] at hs; exact hs
  have hcalls : (run cfg env).calls = pcalls := by
    rw [run_calls_eq, hatt]
  refine ⟨⟨"Unable to find workflow \x27",
      "\x27 in " ++ cfg.owner ++ "/" ++ cfg.repo ++ " 😥", ?_⟩,
    ⟨"Unable to find workflow \x27" ++ cfg.workflowRef ++ "\x27 in ",
      "/" ++ cfg.repo ++ " 😥", ?_⟩,
    ⟨"Unable to find workflow \x27" ++ cfg.workflowRef ++ "\x27 in " ++ cfg.owner ++ "/",
      " 😥", ?_⟩, ?_⟩
  · rw [hfail]; simp [notFoundMsg, String.append_assoc]
  · rw [hfail]; simp [notFoundMsg, String.append_assoc]
  · rw [hfail]; simp [notFoundMsg, String.append_assoc]
  · rw [hcalls]
    exact filter_of_listPage _ (fun j => rfl) pcalls hshape

/-- Witness for C6: the reference nonexistent against the build and
deploy catalog fails with the contextual message and issues no dispatch
call. -/
theorem not_found_fatal_witness :
    (∃ a b, (run cfgNotFound envCatalog).failedMsg = some (a ++ cfgNotFound.workflowRef ++ b)) ∧
    (∃ a b, (run cfgNotFound envCatalog).failedMsg = some (a ++ cfgNotFound.owner ++ b)) ∧
    (∃ a b, (run cfgNotFound envCatalog).failedMsg = some (a ++ cfgNotFound.repo ++ b)) ∧
    (run cfgNotFound envCatalog).calls.filter NetCall.isDispatchCall = [] :=
  not_found_fatal cfgNotFound envCatalog (Json.obj []) [NetCall.listPage 0]
    [wfBuild, wfDeploy] rfl rfl rfl

/-- C7: a non-empty structured-inputs string whose JSON decode fails
makes the invocation fail terminally with the parse message before any
network call is issued (the platform parse message never ends with the
disabled phrase, taken as a hypothesis). -/
theorem invalid_inputs_fatal (cfg : Config) (env : Env) (msg : String)
    (h0 : cfg.inputsJson ≠ "")
    (h1 : env.parseResult = Except.error msg)
    (h2 : jsEndsWith msg "a disabled workflow" = false) :
    (run cfg env).failedMsg = some msg ∧ (run cfg env).calls = [] := by
  have hbe : (cfg.inputsJson == "") = false := by
    simpa using h0
  have hp : parsedInputs cfg env = Except.error msg := by
    simp [parsedInputs, hbe, h1]
  have hatt : attempt cfg env = ([], Except.error msg) := by
    simp [attempt, hp]
  exact ⟨by simp [run, hatt, h2], by rw [run_calls_eq, hatt]⟩

/-- Witness for C7 on the spec scenario of a malformed inputs string:
fatal configuration failure with the parse message and an empty call
trace. -/
theorem invalid_inputs_fatal_witness :
    (run cfgBadJson envBadJson).failedMsg = some "Unexpected token b in JSON at position 1" ∧
    (run cfgBadJson envBadJson).calls = [] :=
  invalid_inputs_fatal cfgBadJson envBadJson "Unexpected token b in JSON at position 1"
    (by decide) rfl rfl

/-- C10: a structured-inputs string that decodes to any JSON value,
mapping or not, raises no configuration error and the decoded value is
passed through unchanged as the inputs field of the dispatch request. -/
theorem decoded_inputs_passthrough (cfg : Config) (env : Env) (v : Json)
    (pcalls : List NetCall) (workflows : List Workflow) (wf : Workflow)
    (h0 : cfg.inputsJson ≠ "")
    (h1 : env.parseResult = Except.ok v)
    (h2 : paginate 0 env.pages = (pcalls, Except.ok workflows))
    (h3 : findWorkflow workflows cfg.workflowRef = some wf) :
    NetCall.dispatch cfg.owner cfg.repo wf.id cfg.ref v ∈ (run cfg env).calls := by
  have hbe : (cfg.inputsJson == "") = false := by
    simpa using h0
  have hp : parsedInputs cfg env = Except.ok v := by
    simp [parsedInputs, hbe, h1]
  have hmem : NetCall.dispatch cfg.owner cfg.repo wf.id cfg.ref v ∈ (attempt cfg env).1 := by
    simp only [attempt, hp, h2, h3]
    cases env.dispatchResult with
    | error msg => simp
    | ok d =>
      by_cases hr : (d.status == some "queued" && truthy d.workflow_url) = true
      · cases h9 : env.runRead (d.workflow_url.getD "") with
        | error msg => simp [hr, h9]
        | ok rid => simp [hr, h9]
      · have hr2 : (d.status == some "queued" && truthy d.workflow_url) = false := by
          simpa using hr
        simp [hr2]
  rw [run_calls_eq]
  exact hmem

/-- Witness for C10: the inputs string decoding to the array [1, 2] is
passed through as the dispatch request body. -/
theorem decoded_inputs_passthrough_witness :
    NetCall.dispatch cfgArrayJson.owner cfgArrayJson.repo wfBuild.id cfgArrayJson.ref
      (Json.arr [Json.num 1, Json.num 2]) ∈ (run cfgArrayJson envArrayJson).calls :=
  decoded_inputs_passthrough cfgArrayJson envArrayJson (Json.arr [Json.num 1, Json.num 2])
    [NetCall.listPage 0] [wfBuild] wfBuild (by decide) rfl rfl rfl

end WorkflowDispatch
